import Mathlib

/-!
Shallow embedding of `doughdetective/main.py`: a CSV-vs-ledger transaction
reconciler.  Python strings are Lean `String`, Python lists are Lean `List`,
CSV rows are `List String`, dictionaries with known keys are structures,
uncaught Python exceptions are `Except`/`Option` error results.
-/

namespace DoughDetective

/-- Python substring test `needle in hay` on strings. -/
def pyIn (needle hay : String) : Bool :=
  hay.data.tails.any (fun t => needle.data.isPrefixOf t)

/-- Python `s.split('.')[0]`: the prefix of `s` before the first dot. -/
def splitDot (s : String) : String :=
  ⟨s.data.takeWhile (fun c => c ≠ '.')⟩

/-- Digit-string to number; `none` unless the list is nonempty and all digits. -/
def digitsToNat : List Char → Option Nat
  | [] => none
  | [c] => if c.isDigit then some (c.toNat - 48) else none
  | c :: c2 :: cs =>
    if c.isDigit then
      match digitsToNat (c2 :: cs) with
      | none => none
      | some rest =>
        some ((c.toNat - 48) * 10 ^ (c2 :: cs).length + rest)
    else none

/-- Python `int(s)`: optional sign followed by digits, else a ValueError (`none`). -/
def parsePyInt (s : String) : Option Int :=
  match s.data with
  | '-' :: rest => (digitsToNat rest).map (fun n => -(n : Int))
  | '+' :: rest => (digitsToNat rest).map (fun n => (n : Int))
  | cs => (digitsToNat cs).map (fun n => (n : Int))

/-- Gregorian leap-year rule used by Python's `datetime`. -/
def isLeap (y : Nat) : Bool :=
  (y % 4 == 0 && y % 100 != 0) || y % 400 == 0

/-- Days in a month, as validated by Python's `datetime` constructor. -/
def daysInMonth (y m : Nat) : Nat :=
  if m = 2 then (if isLeap y then 29 else 28)
  else if m = 4 ∨ m = 6 ∨ m = 9 ∨ m = 11 then 30
  else 31

/-- Result of `datetime.strptime`: the date/time fields it extracts. -/
structure PyDateTime where
  year : Nat
  month : Nat
  day : Nat
  hour : Nat
  minute : Nat
  second : Nat
deriving DecidableEq, Repr

/-- The default field values `strptime` uses for directives absent from the format. -/
def strptimeDefault : PyDateTime :=
  { year := 1900, month := 1, day := 1, hour := 0, minute := 0, second := 0 }

/-- Take exactly `n` leading digit characters as a number. -/
def takeExactDigits : Nat → List Char → Option (Nat × List Char)
  | 0, cs => some (0, cs)
  | _ + 1, [] => none
  | n + 1, c :: cs =>
    if c.isDigit then
      match takeExactDigits n cs with
      | none => none
      | some (v, rest) => some ((c.toNat - 48) * 10 ^ n + v, rest)
    else none

/-- Take one or two leading digit characters, greedily, as a number. -/
def takeUpTo2Digits : List Char → Option (Nat × List Char)
  | [] => none
  | [c] => if c.isDigit then some (c.toNat - 48, []) else none
  | c :: c2 :: cs =>
    if c.isDigit then
      if c2.isDigit then some ((c.toNat - 48) * 10 + (c2.toNat - 48), cs)
      else some (c.toNat - 48, c2 :: cs)
    else none

/-- Core of `datetime.strptime`: walk the format string against the input,
supporting the directives `%Y %m %d %H %M %S %%` and literal characters.
Fails (`none`) on a mismatch, an unsupported directive, or leftover input. -/
def runStrptime : List Char → List Char → PyDateTime → Option PyDateTime
  | [], [], acc => some acc
  | [], _ :: _, _ => none
  | '%' :: d :: fmt, inp, acc =>
    if d = 'Y' then
      match takeExactDigits 4 inp with
      | none => none
      | some (v, rest) => runStrptime fmt rest { acc with year := v }
    else if d = 'm' then
      match takeUpTo2Digits inp with
      | none => none
      | some (v, rest) =>
        if 1 ≤ v ∧ v ≤ 12 then runStrptime fmt rest { acc with month := v } else none
    else if d = 'd' then
      match takeUpTo2Digits inp with
      | none => none
      | some (v, rest) =>
        if 1 ≤ v ∧ v ≤ 31 then runStrptime fmt rest { acc with day := v } else none
    else if d = 'H' then
      match takeUpTo2Digits inp with
      | none => none
      | some (v, rest) =>
        if v ≤ 23 then runStrptime fmt rest { acc with hour := v } else none
    else if d = 'M' then
      match takeUpTo2Digits inp with
      | none => none
      | some (v, rest) =>
        if v ≤ 59 then runStrptime fmt rest { acc with minute := v } else none
    else if d = 'S' then
      match takeUpTo2Digits inp with
      | none => none
      | some (v, rest) =>
        if v ≤ 59 then runStrptime fmt rest { acc with second := v } else none
    else if d = '%' then
      match inp with
      | c :: rest => if c = '%' then runStrptime fmt rest acc else none
      | [] => none
    else none
  | ['%'], _, _ => none
  | c :: fmt, inp, acc =>
    match inp with
    | c2 :: rest => if c = c2 then runStrptime fmt rest acc else none
    | [] => none

/-- `datetime.strptime(s, fmt)` followed by the `datetime` constructor's
range validation (year 1..9999, day within the month). -/
def pyStrptime (s fmt : String) : Option PyDateTime :=
  match runStrptime fmt.data s.data strptimeDefault with
  | none => none
  | some dt =>
    if 1 ≤ dt.year ∧ dt.year ≤ 9999 ∧ 1 ≤ dt.day ∧ dt.day ≤ daysInMonth dt.year dt.month
    then some dt else none

/-- Zero-pad a number to two digits, as `strftime` `%m`/`%d` do. -/
def pad2 (n : Nat) : String :=
  if n < 10 then "0" ++ toString n else toString n

/-- Zero-pad a number to four digits, as `strftime` `%Y` does. -/
def pad4 (n : Nat) : String :=
  if n < 10 then "000" ++ toString n
  else if n < 100 then "00" ++ toString n
  else if n < 1000 then "0" ++ toString n
  else toString n

/-- `dt.strftime('%Y/%m/%d')`: the canonical date representation. -/
def strftimeYmd (dt : PyDateTime) : String :=
  pad4 dt.year ++ "/" ++ pad2 dt.month ++ "/" ++ pad2 dt.day

/-- Canonical transaction: the dictionary `{'date': .., 'name': .., 'amount': ..}`
built by both `read_csv` and `get_transaction_list`.  All three fields are
Python strings in the source (the CSV amount is the raw field, the ledger
amount is a string produced by truncation). -/
structure Txn where
  date : String
  name : String
  amount : String
deriving DecidableEq, Repr

/-- A JSON scalar as it can appear for the `has_header` / `has_ribo` flags:
the code compares it with the string `"True"` using Python `==`. -/
inductive PyValue where
  | str (s : String)
  | bool (b : Bool)
deriving DecidableEq, Repr

/-- Python `v == "True"` for a flag value: only the exact string matches. -/
def pyEqTrueStr : PyValue → Bool
  | .str s => s == "True"
  | .bool _ => false

/-- Per-account CSV format configuration consumed by `read_csv`. -/
structure CsvConfig where
  date_column : Nat
  description_column : Nat
  amount_column : Nat
  date_format : String
  has_header : PyValue
  has_ribo : PyValue
deriving DecidableEq, Repr

/-- Uncaught Python exceptions `read_csv` can raise: `StopIteration` from
`next(reader)` on an empty file, and `IndexError`/`ValueError` from row
indexing or date parsing, both collapsed into the `MalformedRow` condition. -/
inductive CsvError where
  | stopIteration
  | malformedRow
deriving DecidableEq, Repr

/-- Foreign-currency-conversion marker hard-coded in `read_csv`. -/
def convMarker : String := "現地利用額"

/-- Revolving-credit (ribo) marker hard-coded in `read_csv`. -/
def riboMarker : String := "リボ"

/-- The ribo-exclusion test of `read_csv`: when `has_ribo == "True"`, look for
the conversion marker in `row[1]` and the ribo marker in `row[1]` or `row[3]`
(fixed indices, with `row[3]` only read when `row[1]` has no ribo marker).
Returns `true` when the row is skipped; an out-of-range index is an
`IndexError`, i.e. `malformedRow`. -/
def riboCheck (cfg : CsvConfig) (row : List String) : Except CsvError Bool :=
  if pyEqTrueStr cfg.has_ribo then
    match row.get? 1 with
    | none => .error .malformedRow
    | some f1 =>
      if pyIn convMarker f1 then .ok true
      else if pyIn riboMarker f1 then .ok true
      else
        match row.get? 3 with
        | none => .error .malformedRow
        | some f3 => if pyIn riboMarker f3 then .ok true else .ok false
  else .ok false

/-- The emitting part of `read_csv`'s loop body: parse the configured date
column with the configured format, re-emit it as `%Y/%m/%d`, and take the
description and amount columns verbatim. -/
def emitRow (cfg : CsvConfig) (row : List String) : Except CsvError Txn :=
  match row.get? cfg.date_column with
  | none => .error .malformedRow
  | some rawDate =>
    match pyStrptime rawDate cfg.date_format with
    | none => .error .malformedRow
    | some dt =>
      match row.get? cfg.description_column, row.get? cfg.amount_column with
      | some nm, some am => .ok { date := strftimeYmd dt, name := nm, amount := am }
      | _, _ => .error .malformedRow

/-- One iteration of `read_csv`'s row loop: `ok none` means the row was
excluded by the ribo filter, `ok (some t)` means it was emitted. -/
def processRow (cfg : CsvConfig) (row : List String) : Except CsvError (Option Txn) :=
  match riboCheck cfg row with
  | .error e => .error e
  | .ok true => .ok none
  | .ok false =>
    match emitRow cfg row with
    | .error e => .error e
    | .ok t => .ok (some t)

/-- The row loop of `read_csv`: the first exception aborts the whole run,
so an error yields no transactions at all. -/
def readCsvRows (cfg : CsvConfig) : List (List String) → Except CsvError (List Txn)
  | [] => .ok []
  | row :: rest =>
    match processRow cfg row with
    | .error e => .error e
    | .ok none => readCsvRows cfg rest
    | .ok (some t) =>
      match readCsvRows cfg rest with
      | .error e => .error e
      | .ok ts => .ok (t :: ts)

/-- Header handling of `read_csv`: when `has_header == "True"` the code calls
`next(reader)`, which raises `StopIteration` on an empty file. -/
def csvBodyRows (cfg : CsvConfig) (rows : List (List String)) :
    Except CsvError (List (List String)) :=
  if pyEqTrueStr cfg.has_header then
    match rows with
    | [] => .error .stopIteration
    | _ :: rest => .ok rest
  else .ok rows

/-- `read_csv(csv_file, config)` with the file's parsed rows as input. -/
def read_csv (cfg : CsvConfig) (rows : List (List String)) :
    Except CsvError (List Txn) :=
  match csvBodyRows cfg rows with
  | .error e => .error e
  | .ok body => readCsvRows cfg body

/-- The match test of `compare_transactions`:
`csv_txn['date'] == ff_txn['date'] and csv_txn['amount'] == ff_txn['amount']`. -/
def txnMatches (c f : Txn) : Bool :=
  c.date == f.date && c.amount == f.amount

/-- Inner loop of `compare_transactions`' first pass: scan the ledger list for
the first element matching `c` (the loop breaks on the first hit; nothing is
removed from the list). -/
def findMatchLedger (c : Txn) : List Txn → Bool
  | [] => false
  | f :: fs => if txnMatches c f then true else findMatchLedger c fs

/-- Inner loop of the second pass: scan the CSV list for a match for `f`,
with the comparison written exactly as in the source (`csv` on the left). -/
def findMatchCsv (f : Txn) : List Txn → Bool
  | [] => false
  | c :: cs => if txnMatches c f then true else findMatchCsv f cs

/-- First pass of `compare_transactions`: CSV transactions printed under
"Transactions missing in FF", in order. -/
def missingInLedger (csv ff : List Txn) : List Txn :=
  match csv with
  | [] => []
  | c :: rest =>
    if findMatchLedger c ff then missingInLedger rest ff
    else c :: missingInLedger rest ff

/-- Second pass of `compare_transactions`: ledger transactions printed under
"Transactions missing in CSV", in order. -/
def missingInCsv (csv ff : List Txn) : List Txn :=
  match ff with
  | [] => []
  | f :: rest =>
    if findMatchCsv f csv then missingInCsv csv rest
    else f :: missingInCsv csv rest

/-- `compare_transactions(csv_transactions, firefly_transactions)`: the pair of
printed reports (missing-in-ledger, missing-in-statement). -/
def compare_transactions (csv ff : List Txn) : List Txn × List Txn :=
  (missingInLedger csv ff, missingInCsv csv ff)

/-- A sub-transaction leg of a Firefly transaction group, with the fields the
code reads (`source_id`, `amount`, `date`, `description`). -/
structure SubTxn where
  source_id : String
  amount : String
  date : String
  description : String
deriving DecidableEq, Repr

/-- A Firefly transaction group: `attributes.group_title` (JSON string or
null) and the `attributes.transactions` leg list. -/
structure TxnGroup where
  group_title : Option String
  transactions : List SubTxn
deriving DecidableEq, Repr

/-- Python truthiness of the `group_title` field (`None` and `""` are falsy). -/
def pyTruthy : Option String → Bool
  | none => false
  | some s => s ≠ ""

/-- The timestamp format `get_transaction_list` parses leg dates with. -/
def fireflyDateFormat : String := "%Y-%m-%dT%H:%M:%S+00:00"

/-- Per-leg truncation `int(sub_trans['amount'].split('.')[0])`. -/
def truncLeg (l : SubTxn) : Option Int :=
  parsePyInt (splitDot l.amount)

/-- The `total_cost` loop of the split-transaction branch: left fold of the
truncated leg amounts, failing on the first leg whose amount `int()` rejects. -/
def sumTruncAux (acc : Int) : List SubTxn → Option Int
  | [] => some acc
  | l :: ls =>
    match truncLeg l with
    | none => none
    | some v => sumTruncAux (acc + v) ls

/-- Loop body of `get_transaction_list` for one transaction group: `none`
models an uncaught exception (empty leg list, unparseable amount in the split
branch, or unparseable first-leg date). -/
def normalizeGroup (g : TxnGroup) : Option Txn :=
  if pyTruthy g.group_title then
    match sumTruncAux 0 g.transactions with
    | none => none
    | some total =>
      match g.transactions.head? with
      | none => none
      | some first =>
        match pyStrptime first.date fireflyDateFormat with
        | none => none
        | some dt =>
          some { date := strftimeYmd dt,
                 name := g.group_title.getD "",
                 amount := toString total }
  else
    match g.transactions.head? with
    | none => none
    | some first =>
      match pyStrptime first.date fireflyDateFormat with
      | none => none
      | some dt =>
        some { date := strftimeYmd dt,
               name := first.description,
               amount := splitDot first.amount }

/-- `get_transaction_list` over the already-retrieved, already-filtered
transaction groups: normalize each group in order, aborting on the first
exception. -/
def get_transaction_list (groups : List TxnGroup) : Option (List Txn) :=
  groups.mapM normalizeGroup

/-- The fields of one HTTP response that `make_api_call` reads: the status
code, the `data` array and `meta.pagination.total_pages` (either of the last
two may be absent from the JSON body, which raises `KeyError`). -/
structure ApiResponse (α : Type) where
  status : Nat
  dataItems : Option (List α)
  totalPages : Option Nat

/-- Errors of `make_api_call`: `transportError` is the `HTTPError` from
`response.raise_for_status()`, `protocolError` the `KeyError` from a missing
`data` or pagination field, and `outOfFuel` is the artifact of bounding the
unbounded `while True` loop by a fuel parameter. -/
inductive ApiError where
  | transportError
  | protocolError
  | outOfFuel
deriving DecidableEq, Repr

/-- `response.raise_for_status()` raises exactly for 4xx and 5xx statuses. -/
def raiseForStatus (s : Nat) : Bool :=
  400 ≤ s && s < 600

/-- The `while True` loop of `make_api_call`, with `resp` giving the server's
response to each requested page number.  Returns the list of requested page
numbers together with the result; each iteration checks the status, reads
`data`, increments the page and stops once the next page number exceeds
`total_pages`. -/
def makeApiCallGo {α : Type} (resp : Nat → ApiResponse α) :
    Nat → Nat → List Nat → List α → List Nat × Except ApiError (List α)
  | 0, _, reqs, _ => (reqs, .error .outOfFuel)
  | fuel + 1, page, reqs, acc =>
    let r := resp page
    let reqs2 := reqs ++ [page]
    if raiseForStatus r.status then (reqs2, .error .transportError)
    else
      match r.dataItems with
      | none => (reqs2, .error .protocolError)
      | some items =>
        let acc2 := acc ++ items
        match r.totalPages with
        | none => (reqs2, .error .protocolError)
        | some tp =>
          if page + 1 > tp then (reqs2, .ok acc2)
          else makeApiCallGo resp fuel (page + 1) reqs2 acc2

/-- `make_api_call(endpoint, params)` abstracted over the endpoint's pages:
start at page 1 with empty accumulators. -/
def make_api_call {α : Type} (resp : Nat → ApiResponse α) (fuel : Nat) :
    List Nat × Except ApiError (List α) :=
  makeApiCallGo resp fuel 1 [] []

/-- One account record as read by `get_account_id`:
`account['id']` and `account['attributes']['name']`. -/
structure Account where
  id : String
  name : String
deriving DecidableEq, Repr

/-- `get_account_id(account_name)` over the retrieved account list: return the
id of the first account whose name equals the query under Python `==`
(case-sensitive), else `None`. -/
def get_account_id (accounts : List Account) (accountName : String) : Option String :=
  match accounts with
  | [] => none
  | a :: rest =>
    if a.name == accountName then some a.id
    else get_account_id rest accountName

/-- Whether a row is skipped by the ribo filter on the success path of
`read_csv` (rows on which the filter itself raises are not "excluded", they
abort the run). -/
def isExcludedRow (cfg : CsvConfig) (row : List String) : Bool :=
  match riboCheck cfg row with
  | .ok true => true
  | _ => false

/-! Concrete fixtures used by witness and counterexample theorems. -/

/-- Format configuration whose description column is 0, with ribo filtering on. -/
def cfgDescZero : CsvConfig :=
  { date_column := 2, description_column := 0, amount_column := 3,
    date_format := "%Y/%m/%d", has_header := .str "False", has_ribo := .str "True" }

/-- A row whose description field (column 0) contains the ribo marker but
whose fields 1 and 3 do not. -/
def rowRiboDesc : List String := ["リボショッピング", "x", "2024/09/05", "500"]

/-- Plain format configuration: date/description/amount at columns 0/1/2,
no header, no ribo filtering. -/
def cfgPlain : CsvConfig :=
  { date_column := 0, description_column := 1, amount_column := 2,
    date_format := "%Y/%m/%d", has_header := .str "False", has_ribo := .str "False" }

/-- Input rows with a fractional amount in the configured amount column. -/
def rowsFractional : List (List String) := [["2024/09/05", "coffee", "500.25"]]

/-- Input rows whose second row has an unparseable date. -/
def rowsBadDate : List (List String) :=
  [["2024/09/01", "ok", "5"], ["banana", "x", "6"]]

/-- Format configuration with both `has_header` and `has_ribo` set to `"True"`. -/
def cfgHeaderRibo : CsvConfig :=
  { date_column := 0, description_column := 1, amount_column := 2,
    date_format := "%Y/%m/%d", has_header := .str "True", has_ribo := .str "True" }

/-- Header row, one normal row, and one ribo row (marker in field 1). -/
def rowsHeaderRibo : List (List String) :=
  [["h1", "h2", "h3", "h4"],
   ["2024/09/05", "ok", "500", "z"],
   ["2024/09/06", "リボ払い", "300", "z"]]

/-- Format configuration whose flags hold values other than the string
`"True"` (the JSON boolean `true` and the lowercase string `"true"`). -/
def cfgOtherFlags : CsvConfig :=
  { date_column := 0, description_column := 1, amount_column := 2,
    date_format := "%Y/%m/%d", has_header := .bool true, has_ribo := .str "true" }

/-- A split transaction group: non-empty title and two legs with fractional
amounts, both dated 2024-09-05. -/
def groupSplit : TxnGroup :=
  { group_title := some "Split",
    transactions :=
      [{ source_id := "1", amount := "100.5",
         date := "2024-09-05T00:00:00+00:00", description := "a" },
       { source_id := "1", amount := "23.9",
         date := "2024-09-05T00:00:00+00:00", description := "b" }] }

/-- The parsed first-leg date of `groupSplit`. -/
def dtSplit : PyDateTime :=
  { year := 2024, month := 9, day := 5, hour := 0, minute := 0, second := 0 }

/-- Response sequence that always reports status 304 with a well-formed body. -/
def respRedirect : Nat → ApiResponse String :=
  fun _ => { status := 304, dataItems := some ["x"], totalPages := some 1 }

/-- Response sequence: three pages of two items each, all reporting
`total_pages = 3`. -/
def respThreePages : Nat → ApiResponse Nat :=
  fun p => { status := 200, dataItems := some [p * 10, p * 10 + 1], totalPages := some 3 }

/-- Per-page items of `respThreePages`. -/
def itemsThreePages : Nat → List Nat :=
  fun p => [p * 10, p * 10 + 1]

/-- Response sequence whose first page is fine (reporting 3 total pages) but
whose second page answers with HTTP 404. -/
def respFail404 : Nat → ApiResponse String :=
  fun p =>
    if p = 2 then { status := 404, dataItems := some ["y"], totalPages := some 3 }
    else { status := 200, dataItems := some ["x"], totalPages := some 3 }

/-! Reconciler lemmas. -/

lemma txnMatches_iff (c f : Txn) :
    txnMatches c f = true ↔ (c.date = f.date ∧ c.amount = f.amount) := by
  simp [txnMatches, Bool.and_eq_true, beq_iff_eq]

lemma findMatchLedger_eq_any (c : Txn) :
    ∀ ff : List Txn, findMatchLedger c ff = ff.any (fun f => txnMatches c f) := by
  intro ff
  induction ff with
  | nil => rfl
  | cons f fs ih =>
    by_cases h : txnMatches c f = true
    · simp [findMatchLedger, h]
    · simp only [Bool.not_eq_true] at h
      simp [findMatchLedger, h, ih]

lemma findMatchCsv_eq_any (f : Txn) :
    ∀ cs : List Txn, findMatchCsv f cs = cs.any (fun c => txnMatches c f) := by
  intro cs
  induction cs with
  | nil => rfl
  | cons c rest ih =>
    by_cases h : txnMatches c f = true
    · simp [findMatchCsv, h]
    · simp only [Bool.not_eq_true] at h
      simp [findMatchCsv, h, ih]

lemma missingInLedger_eq_filter (csv ff : List Txn) :
    missingInLedger csv ff = csv.filter (fun c => !(ff.any (fun f => txnMatches c f))) := by
  induction csv with
  | nil => rfl
  | cons c rest ih =>
    by_cases h : findMatchLedger c ff = true
    · have h2 : (ff.any (fun f => txnMatches c f)) = true := by
        rw [← findMatchLedger_eq_any]; exact h
      simp [missingInLedger, h, ih, List.filter_cons, h2]
    · simp only [Bool.not_eq_true] at h
      have h2 : (ff.any (fun f => txnMatches c f)) = false := by
        rw [← findMatchLedger_eq_any]; exact h
      simp [missingInLedger, h, ih, List.filter_cons, h2]

lemma missingInCsv_eq_filter (csv ff : List Txn) :
    missingInCsv csv ff = ff.filter (fun f => !(csv.any (fun c => txnMatches c f))) := by
  induction ff with
  | nil => rfl
  | cons f rest ih =>
    by_cases h : findMatchCsv f csv = true
    · have h2 : (csv.any (fun c => txnMatches c f)) = true := by
        rw [← findMatchCsv_eq_any]; exact h
      simp [missingInCsv, h, ih, List.filter_cons, h2]
    · simp only [Bool.not_eq_true] at h
      have h2 : (csv.any (fun c => txnMatches c f)) = false := by
        rw [← findMatchCsv_eq_any]; exact h
      simp [missingInCsv, h, ih, List.filter_cons, h2]

lemma bool_not_eq_decide_not (b : Bool) (P : Prop) [Decidable P]
    (h : b = true ↔ P) : (!b) = decide ¬P := by
  cases hb : b with
  | true => simp [h.mp hb]
  | false =>
    have hP : ¬P := fun hp => by rw [h.mpr hp] at hb; cases hb
    simp [hP]

lemma any_match_iff (c : Txn) (ff : List Txn) :
    (ff.any (fun f => txnMatches c f) = true) ↔
      ∃ f ∈ ff, c.date = f.date ∧ c.amount = f.amount := by
  simp [List.any_eq_true, txnMatches, Bool.and_eq_true, beq_iff_eq]

lemma any_match_rev_iff (f : Txn) (csv : List Txn) :
    (csv.any (fun c => txnMatches c f) = true) ↔
      ∃ c ∈ csv, c.date = f.date ∧ c.amount = f.amount := by
  simp [List.any_eq_true, txnMatches, Bool.and_eq_true, beq_iff_eq]

/-- C1: in `compare_transactions`, a statement transaction matches a ledger
transaction iff their canonical dates and amounts are equal, with the
description playing no role; on the spec's end-to-end scenario (same date and
amount, descriptions "Coffee" vs "Coffee Shop") both discrepancy reports are
empty. -/
theorem claim_C1 :
    (∀ c f : Txn, txnMatches c f = true ↔ (c.date = f.date ∧ c.amount = f.amount)) ∧
    compare_transactions
      [{ date := "2024/09/05", name := "Coffee", amount := "500" }]
      [{ date := "2024/09/05", name := "Coffee Shop", amount := "500" }] = ([], []) :=
  ⟨txnMatches_iff, by decide⟩

/-- C2 counterexample: with two identical statement rows and one matching
ledger row, `compare_transactions` reports nothing in either direction — the
statement-missing report does not contain one entry as the claim states,
because the code never consumes a matched ledger transaction. -/
theorem claim_C2_counterexample :
    compare_transactions
      [{ date := "2024/09/01", name := "Dup A", amount := "100" },
       { date := "2024/09/01", name := "Dup B", amount := "100" }]
      [{ date := "2024/09/01", name := "Ledger", amount := "100" }] = ([], []) ∧
    (compare_transactions
      [{ date := "2024/09/01", name := "Dup A", amount := "100" },
       { date := "2024/09/01", name := "Dup B", amount := "100" }]
      [{ date := "2024/09/01", name := "Ledger", amount := "100" }]).1.length = 0 := by
  decide

/-- C2 amended: the Reconciler's matching is purely existential with no
consumption — in each direction a transaction is reported missing iff no
transaction of the other list has equal date and amount, so one record can
serve as the match of arbitrarily many records of the other side; hence for
statement = [(2024/09/01, 100), (2024/09/01, 100)] and
ledger = [(2024/09/01, 100)], both reports are empty. -/
theorem claim_C2 :
    (∀ csv ff : List Txn,
      (compare_transactions csv ff).1 =
        csv.filter (fun c => decide (¬ ∃ f ∈ ff, c.date = f.date ∧ c.amount = f.amount)) ∧
      (compare_transactions csv ff).2 =
        ff.filter (fun f => decide (¬ ∃ c ∈ csv, c.date = f.date ∧ c.amount = f.amount))) ∧
    compare_transactions
      [{ date := "2024/09/01", name := "Dup A", amount := "100" },
       { date := "2024/09/01", name := "Dup B", amount := "100" }]
      [{ date := "2024/09/01", name := "Ledger", amount := "100" }] = ([], []) := by
  constructor
  · intro csv ff
    constructor
    · show missingInLedger csv ff = _
      rw [missingInLedger_eq_filter]
      congr 1
      funext c
      exact bool_not_eq_decide_not _ _ (any_match_iff c ff)
    · show missingInCsv csv ff = _
      rw [missingInCsv_eq_filter]
      congr 1
      funext f
      exact bool_not_eq_decide_not _ _ (any_match_rev_iff f csv)
  · decide

/-- C9: `get_account_id` returns the id of an account whose name equals the
query exactly (it scans in order and matches with Python string equality,
which is case-sensitive), and returns `None` — not an error — when no account
in the list bears that exact name. -/
theorem claim_C9 :
    (∀ (accounts : List Account) (nm : String),
      (∃ a ∈ accounts, a.name = nm) →
      ∃ b ∈ accounts, b.name = nm ∧ get_account_id accounts nm = some b.id) ∧
    (∀ (accounts : List Account) (nm : String),
      (∀ a ∈ accounts, a.name ≠ nm) → get_account_id accounts nm = none) := by
  constructor
  · intro accounts nm h
    induction accounts with
    | nil => obtain ⟨a, ha, _⟩ := h; cases ha
    | cons a rest ih =>
      by_cases hn : a.name = nm
      · exact ⟨a, List.mem_cons_self a rest, hn, by simp [get_account_id, hn]⟩
      · have hrest : ∃ b ∈ rest, b.name = nm := by
          obtain ⟨b, hb, hbn⟩ := h
          rcases List.mem_cons.mp hb with hba | hbr
          · exact absurd (hba ▸ hbn) hn
          · exact ⟨b, hbr, hbn⟩
        obtain ⟨b, hb, hbn, heq⟩ := ih hrest
        refine ⟨b, List.mem_cons_of_mem a hb, hbn, ?_⟩
        simpa [get_account_id, hn] using heq
  · intro accounts nm h
    induction accounts with
    | nil => rfl
    | cons a rest ih =>
      have hn : a.name ≠ nm := h a (List.mem_cons_self a rest)
      simp only [get_account_id, beq_iff_eq]
      rw [if_neg hn]
      exact ih (fun b hb => h b (List.mem_cons_of_mem a hb))

/-- C9 witness: resolution over the one-account list `[{id := "7", name :=
"Checking"}]` finds "Checking" and returns `none` for "Savings". -/
theorem claim_C9_witness :
    get_account_id [{ id := "7", name := "Checking" }] "Checking" = some "7" ∧
    get_account_id [{ id := "7", name := "Checking" }] "Savings" = none := by
  constructor
  · obtain ⟨b, hb, hbn, heq⟩ :=
      claim_C9.1 [{ id := "7", name := "Checking" }] "Checking"
        ⟨{ id := "7", name := "Checking" }, List.mem_singleton.mpr rfl, rfl⟩
    rw [List.mem_singleton] at hb
    rw [heq, hb]
  · exact claim_C9.2 _ _ (by intro a ha; rw [List.mem_singleton] at ha; subst ha; decide)

/-- C10: the `has_header` and `has_ribo` flags are compared against the exact
string `"True"`: for any other configured value (including the JSON boolean
`true` or the string `"true"`) the comparison is false, so the header row is
not skipped and the ribo filter excludes nothing. -/
theorem claim_C10 :
    (∀ v : PyValue, pyEqTrueStr v = true ↔ v = .str "True") ∧
    (∀ (cfg : CsvConfig) (rows : List (List String)),
      pyEqTrueStr cfg.has_header = false → read_csv cfg rows = readCsvRows cfg rows) ∧
    (∀ (cfg : CsvConfig) (row : List String),
      pyEqTrueStr cfg.has_ribo = false → riboCheck cfg row = .ok false) := by
  refine ⟨?_, ?_, ?_⟩
  · intro v
    cases v with
    | str s => simp [pyEqTrueStr]
    | bool b => simp [pyEqTrueStr]
  · intro cfg rows h
    simp [read_csv, csvBodyRows, h]
  · intro cfg row h
    simp [riboCheck, h]

/-- C10 witness: with `has_header` the boolean `true` and `has_ribo` the
string `"true"`, no header is skipped and a row carrying the ribo marker is
not excluded. -/
theorem claim_C10_witness :
    read_csv cfgOtherFlags [["2024/09/05", "a", "1"]] =
      readCsvRows cfgOtherFlags [["2024/09/05", "a", "1"]] ∧
    riboCheck cfgOtherFlags rowRiboDesc = .ok false :=
  ⟨claim_C10.2.1 cfgOtherFlags [["2024/09/05", "a", "1"]] (by decide),
   claim_C10.2.2 cfgOtherFlags rowRiboDesc (by decide)⟩

/-! CSV normalizer lemmas. -/

lemma processRow_ok_none {cfg : CsvConfig} {row : List String}
    (h : processRow cfg row = .ok none) : riboCheck cfg row = .ok true := by
  unfold processRow at h
  cases hr : riboCheck cfg row with
  | error e => rw [hr] at h; cases h
  | ok b =>
    cases b with
    | true => rfl
    | false =>
      rw [hr] at h
      cases he : emitRow cfg row with
      | error e => rw [he] at h; cases h
      | ok t => rw [he] at h; cases h

lemma processRow_ok_some {cfg : CsvConfig} {row : List String} {t : Txn}
    (h : processRow cfg row = .ok (some t)) :
    riboCheck cfg row = .ok false ∧ emitRow cfg row = .ok t := by
  unfold processRow at h
  cases hr : riboCheck cfg row with
  | error e => rw [hr] at h; cases h
  | ok b =>
    cases b with
    | true => rw [hr] at h; cases h
    | false =>
      rw [hr] at h
      cases he : emitRow cfg row with
      | error e => rw [he] at h; cases h
      | ok u => rw [he] at h; cases h; exact ⟨rfl, rfl⟩

lemma isExcludedRow_of_ok_none {cfg : CsvConfig} {row : List String}
    (h : processRow cfg row = .ok none) : isExcludedRow cfg row = true := by
  rw [isExcludedRow, processRow_ok_none h]

lemma isExcludedRow_of_ok_some {cfg : CsvConfig} {row : List String} {t : Txn}
    (h : processRow cfg row = .ok (some t)) : isExcludedRow cfg row = false := by
  rw [isExcludedRow, (processRow_ok_some h).1]

lemma readCsvRows_ok_length (cfg : CsvConfig) :
    ∀ (body : List (List String)) (ts : List Txn),
      readCsvRows cfg body = .ok ts →
      ts.length + (body.filter (fun r => isExcludedRow cfg r)).length = body.length := by
  intro body
  induction body with
  | nil => intro ts h; cases h; rfl
  | cons row rest ih =>
    intro ts h
    unfold readCsvRows at h
    cases hp : processRow cfg row with
    | error e => rw [hp] at h; cases h
    | ok o =>
      cases o with
      | none =>
        rw [hp] at h
        have := ih ts h
        simp [List.filter_cons, isExcludedRow_of_ok_none hp]
        omega
      | some t =>
        rw [hp] at h
        cases hrest : readCsvRows cfg rest with
        | error e => rw [hrest] at h; cases h
        | ok ts2 =>
          rw [hrest] at h
          cases h
          have := ih ts2 hrest
          simp [List.filter_cons, isExcludedRow_of_ok_some hp]
          omega

/-- C6 counterexample: with `description_column = 0` and `has_ribo = "True"`,
a row whose description field contains the revolving-credit marker is not
excluded — the code checks the fixed fields at indices 1 and 3, not the
configured description column — so the output count includes it. -/
theorem claim_C6_counterexample :
    cfgDescZero.has_ribo = .str "True" ∧
    rowRiboDesc.get? cfgDescZero.description_column = some "リボショッピング" ∧
    pyIn riboMarker "リボショッピング" = true ∧
    read_csv cfgDescZero [rowRiboDesc] =
      .ok [{ date := "2024/09/05", name := "リボショッピング", amount := "500" }] :=
  ⟨rfl, rfl, by decide, rfl⟩

/-- C6 amended: for every CSV input on which normalization succeeds, the
output count equals the input row count minus the header (when `has_header`
is the string `"True"`) minus the excluded rows; and when `has_ribo` is
`"True"`, a row is excluded iff the field at the fixed index 1 contains the
foreign-currency-conversion marker, or the field at index 1 or at the fixed
index 3 contains the revolving-credit marker — the configured description and
amount columns play no part in exclusion. -/
theorem claim_C6 :
    (∀ (cfg : CsvConfig) (rows body : List (List String)) (ts : List Txn),
      csvBodyRows cfg rows = .ok body → readCsvRows cfg body = .ok ts →
      ts.length + (body.filter (fun r => isExcludedRow cfg r)).length
        + (if pyEqTrueStr cfg.has_header then 1 else 0) = rows.length) ∧
    (∀ (cfg : CsvConfig) (row : List String) (f1 : String),
      pyEqTrueStr cfg.has_ribo = true → row.get? 1 = some f1 →
      (isExcludedRow cfg row = true ↔
        (pyIn convMarker f1 = true ∨ pyIn riboMarker f1 = true ∨
          ∃ f3, row.get? 3 = some f3 ∧ pyIn riboMarker f3 = true))) := by
  constructor
  · intro cfg rows body ts hbody hrows
    have hlen := readCsvRows_ok_length cfg body ts hrows
    unfold csvBodyRows at hbody
    by_cases hh : pyEqTrueStr cfg.has_header = true
    · rw [if_pos hh] at hbody
      rw [hh]
      cases rows with
      | nil => cases hbody
      | cons r rest =>
        cases hbody
        simp only [List.length_cons, if_pos]
        omega
    · rw [Bool.not_eq_true] at hh
      rw [hh] at hbody ⊢
      cases hbody
      simp only [if_neg Bool.false_ne_true]
      omega
  · intro cfg row f1 hr h1
    unfold isExcludedRow riboCheck
    rw [hr, h1]
    simp only []
    by_cases hc : pyIn convMarker f1 = true
    · simp [hc]
    · rw [Bool.not_eq_true] at hc
      by_cases hrb : pyIn riboMarker f1 = true
      · simp [hc, hrb]
      · rw [Bool.not_eq_true] at hrb
        cases h3 : row.get? 3 with
        | none =>
          simp [hc, hrb, h3]
        | some f3 =>
          by_cases h3r : pyIn riboMarker f3 = true
          · simp [hc, hrb, h3, h3r]
          · rw [Bool.not_eq_true] at h3r
            simp [hc, hrb, h3, h3r]

/-- C6 witness: with header and ribo filtering on, three input rows (header,
one normal row, one ribo row) yield one canonical transaction:
1 + 1 + 1 = 3. -/
theorem claim_C6_witness :
    ([({ date := "2024/09/05", name := "ok", amount := "500" } : Txn)]).length
      + ((rowsHeaderRibo.drop 1).filter (fun r => isExcludedRow cfgHeaderRibo r)).length
      + (if pyEqTrueStr cfgHeaderRibo.has_header then 1 else 0) = rowsHeaderRibo.length :=
  claim_C6.1 cfgHeaderRibo rowsHeaderRibo (rowsHeaderRibo.drop 1) _ rfl rfl

lemma emitRow_error_of {cfg : CsvConfig} {row : List String}
    (h : row.get? cfg.date_column = none ∨
      (∃ d, row.get? cfg.date_column = some d ∧ pyStrptime d cfg.date_format = none) ∨
      row.get? cfg.description_column = none ∨
      row.get? cfg.amount_column = none) :
    emitRow cfg row = .error .malformedRow := by
  unfold emitRow
  rcases h with hd | ⟨d, hd, hp⟩ | hdesc | hamt
  · simp only [hd]
  · simp only [hd, hp]
  · cases hd : row.get? cfg.date_column with
    | none => simp only [hd]
    | some d =>
      cases hp : pyStrptime d cfg.date_format with
      | none => simp only [hd, hp]
      | some dt =>
        cases hamt : row.get? cfg.amount_column with
        | none => simp only [hd, hp, hdesc, hamt]
        | some am => simp only [hd, hp, hdesc, hamt]
  · cases hd : row.get? cfg.date_column with
    | none => simp only [hd]
    | some d =>
      cases hp : pyStrptime d cfg.date_format with
      | none => simp only [hd, hp]
      | some dt =>
        cases hdesc : row.get? cfg.description_column with
        | none => simp only [hd, hp, hdesc, hamt]
        | some nm => simp only [hd, hp, hdesc, hamt]

lemma processRow_error_of {cfg : CsvConfig} {row : List String}
    (hr : riboCheck cfg row = .ok false)
    (he : emitRow cfg row = .error .malformedRow) :
    processRow cfg row = .error .malformedRow := by
  unfold processRow
  rw [hr, he]

lemma readCsvRows_append_error (cfg : CsvConfig) (row : List String)
    (post : List (List String)) :
    ∀ pre : List (List String),
      (∀ r ∈ pre, ∃ o, processRow cfg r = .ok o) →
      processRow cfg row = .error .malformedRow →
      readCsvRows cfg (pre ++ row :: post) = .error .malformedRow := by
  intro pre
  induction pre with
  | nil =>
    intro _ hrow
    show readCsvRows cfg (row :: post) = _
    unfold readCsvRows
    rw [hrow]
  | cons r pre ih =>
    intro hpre hrow
    obtain ⟨o, ho⟩ := hpre r (List.mem_cons_self r pre)
    have hrec := ih (fun q hq => hpre q (List.mem_cons_of_mem r hq)) hrow
    show readCsvRows cfg (r :: (pre ++ row :: post)) = _
    unfold readCsvRows
    rw [ho]
    cases o with
    | none => exact hrec
    | some t => rw [hrec]

/-- C7: when normalization reaches a non-excluded row that lacks one of the
configured column indices or whose date field fails to parse under the
configured format, `read_csv` raises (a `MalformedRow` condition) and, the
result being an error, yields no transactions at all — no partial output. -/
theorem claim_C7 :
    ∀ (cfg : CsvConfig) (rows pre post : List (List String)) (row : List String),
      csvBodyRows cfg rows = .ok (pre ++ row :: post) →
      (∀ r ∈ pre, ∃ o, processRow cfg r = .ok o) →
      riboCheck cfg row = .ok false →
      (row.get? cfg.date_column = none ∨
        (∃ d, row.get? cfg.date_column = some d ∧ pyStrptime d cfg.date_format = none) ∨
        row.get? cfg.description_column = none ∨
        row.get? cfg.amount_column = none) →
      read_csv cfg rows = .error CsvError.malformedRow := by
  intro cfg rows pre post row hbody hpre hrc hbad
  unfold read_csv
  rw [hbody]
  exact readCsvRows_append_error cfg row post pre hpre
    (processRow_error_of hrc (emitRow_error_of hbad))

/-- C7 witness: a two-row input whose second row's date field "banana" fails
to parse as `%Y/%m/%d` makes `read_csv` fail with `MalformedRow`. -/
theorem claim_C7_witness :
    read_csv cfgPlain rowsBadDate = .error CsvError.malformedRow :=
  claim_C7 cfgPlain rowsBadDate [["2024/09/01", "ok", "5"]] [] ["banana", "x", "6"]
    rfl
    (by
      intro r hr
      rw [List.mem_singleton] at hr
      subst hr
      exact ⟨some { date := "2024/09/01", name := "ok", amount := "5" }, rfl⟩)
    rfl
    (Or.inr (Or.inl ⟨"banana", rfl, rfl⟩))

/-- C4 counterexample: `read_csv` emits the raw amount field unchanged — a
row whose amount field is "500.25" yields a canonical amount of "500.25",
which is not an integer and differs from its truncation "500". -/
theorem claim_C4_counterexample :
    read_csv cfgPlain rowsFractional =
      .ok [{ date := "2024/09/05", name := "coffee", amount := "500.25" }] ∧
    splitDot "500.25" = "500" ∧
    (("500.25" : String) == ("500" : String)) = false ∧
    parsePyInt "500.25" = none :=
  ⟨rfl, rfl, by decide, rfl⟩

lemma emitRow_ok_amount {cfg : CsvConfig} {row : List String} {t : Txn}
    (h : emitRow cfg row = .ok t) : row.get? cfg.amount_column = some t.amount := by
  cases hd : row.get? cfg.date_column with
  | none =>
    have he : emitRow cfg row = .error .malformedRow := by
      unfold emitRow; simp only [hd]
    rw [he] at h; cases h
  | some d =>
    cases hp : pyStrptime d cfg.date_format with
    | none =>
      have he : emitRow cfg row = .error .malformedRow := by
        unfold emitRow; simp only [hd, hp]
      rw [he] at h; cases h
    | some dt =>
      cases hdesc : row.get? cfg.description_column with
      | none =>
        cases hamt : row.get? cfg.amount_column with
        | none =>
          have he : emitRow cfg row = .error .malformedRow := by
            unfold emitRow; simp only [hd, hp, hdesc, hamt]
          rw [he] at h; cases h
        | some am =>
          have he : emitRow cfg row = .error .malformedRow := by
            unfold emitRow; simp only [hd, hp, hdesc, hamt]
          rw [he] at h; cases h
      | some nm =>
        cases hamt : row.get? cfg.amount_column with
        | none =>
          have he : emitRow cfg row = .error .malformedRow := by
            unfold emitRow; simp only [hd, hp, hdesc, hamt]
          rw [he] at h; cases h
        | some am =>
          have he : emitRow cfg row =
              .ok { date := strftimeYmd dt, name := nm, amount := am } := by
            unfold emitRow; simp only [hd, hp, hdesc, hamt]
          rw [he] at h
          cases h
          rfl

/-- C4 amended: the Ledger Client's canonical amounts are derived by
truncation (split group: the string of the sum of the legs' truncated
amounts; single transaction: the first leg's amount with everything from the
first dot removed), but the CSV Normalizer performs no truncation at all —
it emits the configured amount column's raw field verbatim. -/
theorem claim_C4 :
    (∀ (cfg : CsvConfig) (row : List String) (t : Txn),
      processRow cfg row = .ok (some t) →
      row.get? cfg.amount_column = some t.amount) ∧
    (∀ (g : TxnGroup) (t : Txn), normalizeGroup g = some t →
      ∃ first, g.transactions.head? = some first ∧
        ((pyTruthy g.group_title = true ∧
          ∃ total, sumTruncAux 0 g.transactions = some total ∧ t.amount = toString total) ∨
         (pyTruthy g.group_title = false ∧ t.amount = splitDot first.amount))) := by
  constructor
  · intro cfg row t h
    exact emitRow_ok_amount (processRow_ok_some h).2
  · intro g t h
    by_cases ht : pyTruthy g.group_title = true
    · cases hs : sumTruncAux 0 g.transactions with
      | none =>
        have he : normalizeGroup g = none := by simp [normalizeGroup, ht, hs]
        rw [he] at h; cases h
      | some total =>
        cases hh : g.transactions.head? with
        | none =>
          have he : normalizeGroup g = none := by simp [normalizeGroup, ht, hs, hh]
          rw [he] at h; cases h
        | some first =>
          cases hp : pyStrptime first.date fireflyDateFormat with
          | none =>
            have he : normalizeGroup g = none := by simp [normalizeGroup, ht, hs, hh, hp]
            rw [he] at h; cases h
          | some dt =>
            have he : normalizeGroup g = some
                { date := strftimeYmd dt, name := g.group_title.getD "",
                  amount := toString total } := by
              simp [normalizeGroup, ht, hs, hh, hp]
            rw [he] at h
            cases h
            exact ⟨first, rfl, Or.inl ⟨ht, total, rfl, rfl⟩⟩
    · rw [Bool.not_eq_true] at ht
      cases hh : g.transactions.head? with
      | none =>
        have he : normalizeGroup g = none := by simp [normalizeGroup, ht, hh]
        rw [he] at h; cases h
      | some first =>
        cases hp : pyStrptime first.date fireflyDateFormat with
        | none =>
          have he : normalizeGroup g = none := by simp [normalizeGroup, ht, hh, hp]
          rw [he] at h; cases h
        | some dt =>
          have he : normalizeGroup g = some
              { date := strftimeYmd dt, name := first.description,
                amount := splitDot first.amount } := by
            simp [normalizeGroup, ht, hh, hp]
          rw [he] at h
          cases h
          exact ⟨first, rfl, Or.inr ⟨ht, rfl⟩⟩

/-- C4 witness: the CSV row with amount field "500.25" passes it through
verbatim, and the split group with legs 100.5 and 23.9 yields the truncated
sum "123". -/
theorem claim_C4_witness :
    (["2024/09/05", "coffee", "500.25"].get? cfgPlain.amount_column = some "500.25") ∧
    (∃ first, groupSplit.transactions.head? = some first ∧
      ((pyTruthy groupSplit.group_title = true ∧
        ∃ total, sumTruncAux 0 groupSplit.transactions = some total ∧
          ("123" : String) = toString total) ∨
       (pyTruthy groupSplit.group_title = false ∧
        ("123" : String) = splitDot first.amount))) :=
  ⟨claim_C4.1 cfgPlain ["2024/09/05", "coffee", "500.25"]
      { date := "2024/09/05", name := "coffee", amount := "500.25" } rfl,
   claim_C4.2 groupSplit { date := "2024/09/05", name := "Split", amount := "123" } rfl⟩

lemma sumTruncAux_eq_sum :
    ∀ (legs : List SubTxn), (∀ l ∈ legs, (truncLeg l).isSome) →
      ∀ acc : Int, sumTruncAux acc legs =
        some (acc + (legs.map (fun l => (truncLeg l).getD 0)).sum) := by
  intro legs
  induction legs with
  | nil => intro _ acc; simp [sumTruncAux]
  | cons l ls ih =>
    intro h acc
    obtain ⟨v, hv⟩ := Option.isSome_iff_exists.mp (h l (List.mem_cons_self l ls))
    have hstep : sumTruncAux acc (l :: ls) = sumTruncAux (acc + v) ls := by
      simp [sumTruncAux, hv]
    rw [hstep, ih (fun q hq => h q (List.mem_cons_of_mem l hq)) (acc + v)]
    simp [hv, Int.add_assoc]

/-- C3: for a well-formed transaction group (nonempty leg list, parseable
first-leg date, and — in the split case — leg amounts accepted by `int`),
`get_transaction_list`'s normalization yields: when the group title is truthy
(non-null and non-empty) the sum of the legs' truncated amounts (the sum not
re-truncated) with the title as description, otherwise the first leg's
truncated-string amount and description; the canonical date always comes from
the first leg. -/
theorem claim_C3 :
    ∀ (g : TxnGroup) (first : SubTxn) (dt : PyDateTime),
      g.transactions.head? = some first →
      pyStrptime first.date fireflyDateFormat = some dt →
      (pyTruthy g.group_title = true → ∀ l ∈ g.transactions, (truncLeg l).isSome) →
      normalizeGroup g = some
        { date := strftimeYmd dt,
          name := if pyTruthy g.group_title then g.group_title.getD ""
            else first.description,
          amount := if pyTruthy g.group_title then
              toString ((g.transactions.map (fun l => (truncLeg l).getD 0)).sum)
            else splitDot first.amount } := by
  intro g first dt hh hp hlegs
  by_cases ht : pyTruthy g.group_title = true
  · have hs := sumTruncAux_eq_sum g.transactions (hlegs ht) 0
    rw [Int.zero_add] at hs
    simp [normalizeGroup, ht, hs, hh, hp]
  · rw [Bool.not_eq_true] at ht
    simp [normalizeGroup, ht, hh, hp]

/-- C3 witness: the split group titled "Split" with legs 100.5 and 23.9 on
2024-09-05 normalizes to amount "123" (= 100 + 23), description "Split",
date "2024/09/05". -/
theorem claim_C3_witness :
    normalizeGroup groupSplit =
      some { date := "2024/09/05", name := "Split", amount := "123" } :=
  claim_C3 groupSplit
    { source_id := "1", amount := "100.5",
      date := "2024-09-05T00:00:00+00:00", description := "a" }
    dtSplit rfl rfl (by intro _; decide)

/-! Pagination loop lemmas. -/

lemma flatten_length_const {α : Type} :
    ∀ (L : List (List α)) (k : Nat), (∀ x ∈ L, x.length = k) →
      L.flatten.length = L.length * k := by
  intro L k
  induction L with
  | nil => intro _; simp
  | cons x L ih =>
    intro h
    rw [List.flatten_cons, List.length_append, ih (fun q hq => h q (List.mem_cons_of_mem x hq)),
      List.length_cons, Nat.succ_mul, h x (List.mem_cons_self x L)]
    exact Nat.add_comm _ _

lemma makeApiCallGo_run {α : Type} (resp : Nat → ApiResponse α) (items : Nat → List α)
    (N : Nat)
    (hst : ∀ p, raiseForStatus (resp p).status = false)
    (hda : ∀ p, (resp p).dataItems = some (items p))
    (htp : ∀ p, (resp p).totalPages = some N) :
    ∀ (cnt page : Nat) (rq : List Nat) (acc : List α) (fuel : Nat),
      page + cnt = N → cnt + 1 ≤ fuel →
      makeApiCallGo resp fuel page rq acc =
        (rq ++ List.range' page (cnt + 1),
         .ok (acc ++ ((List.range' page (cnt + 1)).map items).flatten)) := by
  intro cnt
  induction cnt with
  | zero =>
    intro page rq acc fuel hpage hfuel
    cases fuel with
    | zero => omega
    | succ f =>
      rw [Nat.add_zero] at hpage
      subst hpage
      show makeApiCallGo resp (f + 1) page rq acc = _
      simp only [makeApiCallGo, hst page, Bool.false_eq_true, if_false, hda page, htp page]
      rw [if_pos (Nat.lt_succ_self page)]
      simp [List.range'_succ]
  | succ c ih =>
    intro page rq acc fuel hpage hfuel
    cases fuel with
    | zero => omega
    | succ f =>
      show makeApiCallGo resp (f + 1) page rq acc = _
      simp only [makeApiCallGo, hst page, Bool.false_eq_true, if_false, hda page, htp page]
      rw [if_neg (by omega)]
      rw [ih (page + 1) (rq ++ [page]) (acc ++ items page) f (by omega) (by omega)]
      rw [List.range'_succ page (c + 1) 1]
      simp [List.append_assoc]

/-- C5: when every page reports `N` total pages (`N ≥ 1`) and every response
is well-formed, `make_api_call` requests exactly pages 1 through N in order
(so no request for page N+1 is made) and returns the concatenation of the
pages' `data` arrays in request order; with `k` items per page the result has
N * k items. -/
theorem claim_C5 :
    ∀ {α : Type} (resp : Nat → ApiResponse α) (items : Nat → List α) (N k fuel : Nat),
      1 ≤ N → N ≤ fuel →
      (∀ p, raiseForStatus (resp p).status = false) →
      (∀ p, (resp p).dataItems = some (items p)) →
      (∀ p, (resp p).totalPages = some N) →
      make_api_call resp fuel =
        (List.range' 1 N, .ok ((List.range' 1 N).map items).flatten) ∧
      ((∀ p, (items p).length = k) →
        (((List.range' 1 N).map items).flatten).length = N * k) := by
  intro α resp items N k fuel hN hfuel hst hda htp
  constructor
  · obtain ⟨n, rfl⟩ : ∃ n, N = n + 1 := ⟨N - 1, by omega⟩
    have := makeApiCallGo_run resp items (n + 1) hst hda htp n 1 [] [] fuel
      (by omega) (by omega)
    simpa [make_api_call] using this
  · intro hlen
    rw [flatten_length_const ((List.range' 1 N).map items) k]
    · simp
    · intro x hx
      obtain ⟨p, _, rfl⟩ := List.mem_map.mp hx
      exact hlen p

/-- C5 witness: three pages of two items each are retrieved as pages
[1, 2, 3] and concatenated to six items (3 * 2). -/
theorem claim_C5_witness :
    make_api_call respThreePages 10 = ([1, 2, 3], .ok [10, 11, 20, 21, 30, 31]) ∧
    (((List.range' 1 3).map itemsThreePages).flatten).length = 3 * 2 := by
  have h := claim_C5 respThreePages itemsThreePages 3 2 10 (by omega) (by omega)
    (fun p => rfl) (fun p => rfl) (fun p => rfl)
  exact ⟨by rw [h.1]; rfl, h.2 (fun p => rfl)⟩

lemma makeApiCallGo_reach {α : Type} (resp : Nat → ApiResponse α) (N k : Nat)
    (hgood : ∀ p, 1 ≤ p → p < k →
      raiseForStatus (resp p).status = false ∧
      (∃ it, (resp p).dataItems = some it) ∧
      (resp p).totalPages = some N)
    (hkN : k ≤ N) :
    ∀ (j page : Nat) (rq : List Nat) (acc : List α) (fuel : Nat),
      page + j = k → 1 ≤ page → j + 1 ≤ fuel →
      ∃ acc2, makeApiCallGo resp fuel page rq acc =
        makeApiCallGo resp (fuel - j) k (rq ++ List.range' page j) acc2 := by
  intro j
  induction j with
  | zero =>
    intro page rq acc fuel hpage _ _
    rw [Nat.add_zero] at hpage
    subst hpage
    exact ⟨acc, by simp⟩
  | succ j ih =>
    intro page rq acc fuel hpage hp1 hfuel
    cases fuel with
    | zero => omega
    | succ f =>
      obtain ⟨hst, ⟨it, hda⟩, htp⟩ := hgood page hp1 (by omega)
      have hstep : makeApiCallGo resp (f + 1) page rq acc =
          makeApiCallGo resp f (page + 1) (rq ++ [page]) (acc ++ it) := by
        simp only [makeApiCallGo, hst, Bool.false_eq_true, if_false, hda, htp]
        rw [if_neg (by omega)]
      obtain ⟨acc2, hrec⟩ := ih (page + 1) (rq ++ [page]) (acc ++ it) f
        (by omega) (by omega) (by omega)
      refine ⟨acc2, ?_⟩
      rw [hstep, hrec, List.range'_succ page j 1]
      have hfm : f - j = f + 1 - (j + 1) := by omega
      rw [← hfm, List.append_assoc]
      rfl

/-- C8 counterexample: a response with HTTP status 304 — not a 2xx status —
and a well-formed body is processed successfully by `make_api_call` with no
`TransportError`, because `raise_for_status` raises only for 4xx/5xx. -/
theorem claim_C8_counterexample :
    make_api_call respRedirect 5 = ([1], .ok ["x"]) ∧
    (respRedirect 1).status = 304 ∧
    (300 ≤ (respRedirect 1).status ∨ (respRedirect 1).status < 200) :=
  ⟨rfl, rfl, by decide⟩

/-- C8 amended: the Ledger Client fails with `TransportError` on any 4xx or
5xx HTTP status — and only those; other non-2xx statuses are not treated as
transport failures — propagated immediately with no retry (the failing page
is requested exactly once and requesting stops there), and fails with
`ProtocolError` when the `data` or pagination field is absent from a response
body; the result on any such failure is the bare error, never partial data. -/
theorem claim_C8 :
    (∀ {α : Type} (resp : Nat → ApiResponse α) (N k fuel : Nat),
      1 ≤ k → k ≤ N → k ≤ fuel →
      (∀ p, 1 ≤ p → p < k →
        raiseForStatus (resp p).status = false ∧
        (∃ it, (resp p).dataItems = some it) ∧
        (resp p).totalPages = some N) →
      (raiseForStatus (resp k).status = true →
        make_api_call resp fuel = (List.range' 1 k, .error .transportError)) ∧
      (raiseForStatus (resp k).status = false → (resp k).dataItems = none →
        make_api_call resp fuel = (List.range' 1 k, .error .protocolError)) ∧
      (∀ it, raiseForStatus (resp k).status = false → (resp k).dataItems = some it →
        (resp k).totalPages = none →
        make_api_call resp fuel = (List.range' 1 k, .error .protocolError))) ∧
    (∀ s : Nat, raiseForStatus s = true ↔ 400 ≤ s ∧ s < 600) := by
  constructor
  · intro α resp N k fuel hk hkN hfuel hgood
    obtain ⟨j, rfl⟩ : ∃ j, k = j + 1 := ⟨k - 1, by omega⟩
    obtain ⟨acc2, hreach⟩ := makeApiCallGo_reach resp N (j + 1) hgood hkN j 1 [] [] fuel
      (by omega) (by omega) (by omega)
    have hrange : ([] : List Nat) ++ List.range' 1 j = List.range' 1 j := List.nil_append _
    rw [hrange] at hreach
    obtain ⟨f2, hf2⟩ : ∃ f2, fuel - j = f2 + 1 := ⟨fuel - j - 1, by omega⟩
    rw [hf2] at hreach
    have hcat : List.range' 1 j ++ [j + 1] = List.range' 1 (j + 1) := by
      have h : List.range' 1 (j + 1) 1 = List.range' 1 j 1 ++ [1 + 1 * j] :=
        List.range'_concat 1 j
      rw [h]
      simp [Nat.one_mul, Nat.add_comm]
    refine ⟨?_, ?_, ?_⟩
    · intro hst
      show make_api_call resp fuel = _
      rw [make_api_call, hreach]
      simp only [makeApiCallGo, hst, if_true]
      rw [hcat]
    · intro hst hda
      rw [make_api_call, hreach]
      simp only [makeApiCallGo, hst, Bool.false_eq_true, if_false, hda]
      rw [hcat]
    · intro it hst hda htp
      rw [make_api_call, hreach]
      simp only [makeApiCallGo, hst, Bool.false_eq_true, if_false, hda, htp]
      rw [hcat]
  · intro s
    simp [raiseForStatus, Bool.and_eq_true, decide_eq_true_eq]

/-- C8 witness: with page 1 well-formed but page 2 answering HTTP 404,
`make_api_call` requests exactly pages [1, 2] and fails with
`TransportError`, returning no data. -/
theorem claim_C8_witness :
    make_api_call respFail404 5 = (List.range' 1 2, .error ApiError.transportError) :=
  (claim_C8.1 respFail404 3 2 5 (by omega) (by omega) (by omega)
    (by
      intro p hp1 hp2
      have hp : p = 1 := by omega
      subst hp
      exact ⟨rfl, ⟨["x"], rfl⟩, rfl⟩)).1 rfl

/-- C1 witness: the match predicate holds on the scenario's pair of
transactions, whose descriptions differ. -/
theorem claim_C1_witness :
    txnMatches { date := "2024/09/05", name := "Coffee", amount := "500" }
      { date := "2024/09/05", name := "Coffee Shop", amount := "500" } = true :=
  (claim_C1.1 { date := "2024/09/05", name := "Coffee", amount := "500" }
    { date := "2024/09/05", name := "Coffee Shop", amount := "500" }).mpr ⟨rfl, rfl⟩

/-- C2 witness: the no-consumption characterization evaluated on the
duplicate-statement scenario. -/
theorem claim_C2_witness :
    (compare_transactions
      [{ date := "2024/09/01", name := "Dup A", amount := "100" },
       { date := "2024/09/01", name := "Dup B", amount := "100" }]
      [{ date := "2024/09/01", name := "Ledger", amount := "100" }]).1 =
      [{ date := "2024/09/01", name := "Dup A", amount := "100" },
       { date := "2024/09/01", name := "Dup B", amount := "100" }].filter
        (fun c => decide (¬ ∃ f ∈
          [({ date := "2024/09/01", name := "Ledger", amount := "100" } : Txn)],
          c.date = f.date ∧ c.amount = f.amount)) :=
  (claim_C2.1
    [{ date := "2024/09/01", name := "Dup A", amount := "100" },
     { date := "2024/09/01", name := "Dup B", amount := "100" }]
    [{ date := "2024/09/01", name := "Ledger", amount := "100" }]).1

end DoughDetective
